import Mathlib

/-!
Shallow embedding of the streaming-response decoder and accumulator of
`client/responses.go` (package `client`) together with the data model of
package `models`.  Go strings become `String`, Go `int`/`int64` become `Int`,
nilable slices become `Option (List _)` where the code distinguishes nil,
nilable struct pointers become `Option _`, and the dynamically-typed JSON
object `map[string]interface{}` is restricted to the fields the code reads
(each field an `Option` of its expected type; a missing or wrongly-typed
field is `none`, matching the `v, ok := m[k].(T)` idiom).  Code paths that
panic (slice index out of range) are modelled by `Option`-valued results.
-/

/-- `models.Usage`: token usage statistics. -/
structure Usage where
  PromptTokens : Int
  CompletionTokens : Int
  TotalTokens : Int
deriving DecidableEq, Repr

/-- The anonymous `struct { Name, Arguments string }` inside
`models.ResponseToolCall.Function`. -/
structure ToolCallFunction where
  Name : String
  Arguments : String
deriving DecidableEq, Repr

/-- `models.ResponseToolCall` (field `Type` is rendered `Typ`). -/
structure ResponseToolCall where
  ID : String
  CallID : String
  Typ : String
  Function : ToolCallFunction
deriving DecidableEq, Repr

/-- `models.ResponseMessage`. -/
structure ResponseMessage where
  Role : String
  Content : String
deriving DecidableEq, Repr

/-- `models.ResponseChoice`.  The `ToolCalls` slice is nilable and the code
distinguishes nil from empty (`AddChunk` line 507, `ToResponse` line 567),
so it is an `Option (List _)` with `none` for Go's nil. -/
structure ResponseChoice where
  Index : Int
  Message : ResponseMessage
  FinishReason : String
  ToolCalls : Option (List ResponseToolCall)
deriving DecidableEq, Repr

/-- `models.ResponseStreamDelta`. -/
structure ResponseStreamDelta where
  Role : String
  Content : String
  ToolCalls : List ResponseToolCall
deriving DecidableEq, Repr

/-- `models.ResponseStreamChoice`. -/
structure ResponseStreamChoice where
  Index : Int
  Delta : ResponseStreamDelta
  FinishReason : String
deriving DecidableEq, Repr

/-- `models.ResponseStreamResponse`: one decoded stream event. -/
structure ResponseStreamResponse where
  ID : String
  Object : String
  Created : Int
  Model : String
  Choices : List ResponseStreamChoice
  Usage : Option Usage
deriving DecidableEq, Repr

/-- `models.ResponseResponse` (the materialized document; the `OutputText`
field is untouched by `ToResponse`, hence always `""` here). -/
structure ResponseResponse where
  ID : String
  Object : String
  Created : Int
  Model : String
  Choices : List ResponseChoice
  Usage : Option Usage
  OutputText : String
deriving DecidableEq, Repr

/-- The zero value of `models.ResponseStreamResponse`, as produced by
`response := &models.ResponseStreamResponse{}` in `Recv`. -/
def emptyStreamResponse : ResponseStreamResponse :=
  ⟨"", "", 0, "", [], none⟩

/-! ## The decoded generic JSON event

`Recv` unmarshals each frame into `map[string]interface{}` and reads a fixed
set of keys with type assertions.  `EventData` records exactly those keys;
`none` stands for "absent or not of the asserted type". -/

/-- The sub-object `eventData["item"]` with the keys `Recv` reads. -/
structure RawItem where
  typ : Option String
  id : Option String
  call_id : Option String
  name : Option String
  arguments : Option String
deriving DecidableEq, Repr

/-- The sub-object `respData["usage"]` with the keys `Recv` reads. -/
structure RawUsage where
  prompt_tokens : Option Int
  completion_tokens : Option Int
  total_tokens : Option Int
deriving DecidableEq, Repr

/-- The sub-object `eventData["response"]` with the keys `Recv` reads. -/
structure RawResponse where
  id : Option String
  object : Option String
  created_at : Option Int
  model : Option String
  usage : Option RawUsage
deriving DecidableEq, Repr

/-- The top-level unmarshalled event object with the keys `Recv` reads. -/
structure EventData where
  typ : Option String
  response : Option RawResponse
  delta : Option String
  item : Option RawItem
  output_index : Option Int
  item_id : Option String
  id : Option String
  arguments : Option String
deriving DecidableEq, Repr

/-- An `EventData` with every field absent. -/
def EventData.empty : EventData :=
  ⟨none, none, none, none, none, none, none, none⟩

/-- The `switch eventType` body of `ResponsesStream.Recv` (responses.go
lines 177-401 without the `s.err = io.EOF` side effect, which is modelled
separately by `isTerminal`): builds the `ResponseStreamResponse` from the
unmarshalled event data. -/
def processEvent (d : EventData) : ResponseStreamResponse :=
  let t := d.typ.getD ""
  if t = "response.created" ∨ t = "response.in_progress" then
    match d.response with
    | some rd =>
      { emptyStreamResponse with
          ID := rd.id.getD "", Object := rd.object.getD "",
          Created := rd.created_at.getD 0, Model := rd.model.getD "" }
    | none => emptyStreamResponse
  else if t = "response.output_text.delta" then
    { emptyStreamResponse with
        Choices := [⟨0, ⟨"", d.delta.getD "", []⟩, ""⟩] }
  else if t = "response.output_item.added" then
    match d.item, d.output_index with
    | some it, some idx =>
      if it.typ.getD "" = "function_call" then
        { emptyStreamResponse with
            Choices := [⟨idx,
              ⟨"", "", [⟨it.id.getD "", it.call_id.getD "", "function",
                         ⟨it.name.getD "", ""⟩⟩]⟩, ""⟩] }
      else emptyStreamResponse
    | _, _ => emptyStreamResponse
  else if t = "response.output_item.done" then
    match d.item, d.output_index with
    | some it, some idx =>
      if it.typ.getD "" = "function_call" then
        { emptyStreamResponse with
            Choices := [⟨idx,
              ⟨"", "", [⟨it.id.getD "", it.call_id.getD "", "function",
                         ⟨it.name.getD "", it.arguments.getD ""⟩⟩]⟩, ""⟩] }
      else emptyStreamResponse
    | _, _ => emptyStreamResponse
  else if t = "response.file_search_call.in_progress" ∨
          t = "response.file_search_call.searching" ∨
          t = "response.file_search_call.completed" then
    match d.output_index, d.item_id with
    | some idx, some iid =>
      { emptyStreamResponse with
          Choices := [⟨idx, ⟨"", "", [⟨iid, "", "file_search", ⟨"", ""⟩⟩]⟩, ""⟩] }
    | _, _ => emptyStreamResponse
  else if t = "response.tool_call.created" ∨ t = "response.tool_call.in_progress" then
    match d.output_index with
    | some idx =>
      { emptyStreamResponse with
          Choices := [⟨idx, ⟨"", "", [⟨"", "", "", ⟨"", ""⟩⟩]⟩, ""⟩] }
    | none => emptyStreamResponse
  else if t = "response.tool_call.id" then
    match d.id, d.output_index with
    | some tcid, some idx =>
      { emptyStreamResponse with
          Choices := [⟨idx, ⟨"", "", [⟨tcid, "", "", ⟨"", ""⟩⟩]⟩, ""⟩] }
    | _, _ => emptyStreamResponse
  else if t = "response.function_call_arguments.delta" then
    match d.delta, d.output_index, d.item_id with
    | some dl, some idx, some iid =>
      { emptyStreamResponse with
          Choices := [⟨idx, ⟨"", "", [⟨iid, "", "", ⟨"", dl⟩⟩]⟩, ""⟩] }
    | _, _, _ => emptyStreamResponse
  else if t = "response.function_call_arguments.done" then
    match d.arguments, d.output_index, d.item_id with
    | some ar, some idx, some iid =>
      { emptyStreamResponse with
          Choices := [⟨idx, ⟨"", "", [⟨iid, "", "", ⟨"", ar⟩⟩]⟩, ""⟩] }
    | _, _, _ => emptyStreamResponse
  else if t = "response.completed" ∨ t = "response.incomplete" then
    match d.response with
    | some rd =>
      { emptyStreamResponse with
          ID := rd.id.getD "", Object := rd.object.getD "",
          Created := rd.created_at.getD 0, Model := rd.model.getD "",
          Usage :=
            match rd.usage with
            | some u => some ⟨u.prompt_tokens.getD 0, u.completion_tokens.getD 0,
                              u.total_tokens.getD 0⟩
            | none => none }
    | none => emptyStreamResponse
  else emptyStreamResponse

/-- The terminal event kinds: `Recv` sets `s.err = io.EOF` inside the
`"response.completed", "response.incomplete"` switch arm (line 400),
whether or not the `response` sub-object is present. -/
def isTerminal (d : EventData) : Bool :=
  d.typ.getD "" == "response.completed" || d.typ.getD "" == "response.incomplete"

/-- The skip test of `Recv` line 404: events carrying no choices, no id and
no usage are not surfaced to the caller. -/
def isEmptyResp (r : ResponseStreamResponse) : Bool :=
  r.Choices.isEmpty && r.ID == "" && r.Usage == none

/-! ## The stream (`ResponsesStream.Recv` / `Err`)

One SSE line is abstracted into a `Frame`: a blank line, a line without the
`data: ` marker, the `[DONE]` sentinel, a `data: ` line whose payload fails
`json.Unmarshal`, or a `data: ` line whose payload unmarshals to an
`EventData`. -/

/-- One line of the wire stream, after line splitting. -/
inductive Frame where
  | blank : Frame
  | noData : Frame
  | doneMark : Frame
  | malformed : Frame
  | event : EventData → Frame
deriving DecidableEq, Repr

/-- The Go errors `Recv` can store in `s.err`. -/
inductive GoError where
  | eof : GoError
  | jsonErr : GoError
deriving DecidableEq, Repr

/-- The mutable part of `ResposesStream`: the remaining input lines and the
sticky `err` field. -/
structure StreamState where
  frames : List Frame
  err : Option GoError
deriving DecidableEq, Repr

/-- The recursive body of `Recv` once `s.err` has been checked: reads lines
until one yields a returnable event, an error, or end of stream.  Returns
the result, the remaining lines, and the final value of `s.err`. -/
def recvFrames : List Frame → Except GoError ResponseStreamResponse × List Frame × Option GoError
  | [] => (.error .eof, [], some .eof)
  | .blank :: rest => recvFrames rest
  | .noData :: rest => recvFrames rest
  | .doneMark :: rest => (.error .eof, rest, some .eof)
  | .malformed :: rest => (.error .jsonErr, rest, some .jsonErr)
  | .event d :: rest =>
    let r := processEvent d
    if isEmptyResp r then
      if isTerminal d then
        -- s.err was set to io.EOF inside the switch; the recursive
        -- s.Recv() returns it at the top without reading further.
        (.error .eof, rest, some .eof)
      else recvFrames rest
    else
      (.ok r, rest, if isTerminal d then some .eof else none)

/-- `ResponsesStream.Recv`: returns the previous sticky error if any,
otherwise processes lines via `recvFrames`. -/
def Recv (s : StreamState) : Except GoError ResponseStreamResponse × StreamState :=
  match s.err with
  | some e => (.error e, s)
  | none =>
    let (res, rest, e) := recvFrames s.frames
    (res, ⟨rest, e⟩)

/-- `ResponsesStream.Err`: reports the sticky error, masking `io.EOF`. -/
def StreamState.Err (s : StreamState) : Option GoError :=
  match s.err with
  | some .eof => none
  | e => e

/-! ## The accumulator (`ResponsesStreamAccumulator`) -/

/-- `client.ResponsesStreamAccumulator`. -/
structure ResponsesStreamAccumulator where
  ID : String
  Object : String
  Created : Int
  Model : String
  Choices : List ResponseChoice
  Usage : Option Usage
deriving DecidableEq, Repr

/-- The zero value of the accumulator (a fresh `ResponsesStreamAccumulator`). -/
def accZero : ResponsesStreamAccumulator :=
  ⟨"", "", 0, "", [], none⟩

/-- The default choice the accumulator creates:
`ResponseChoice{Index: idx, Message: {Role: "assistant"}, FinishReason: ""}`
(its `ToolCalls` slice is nil). -/
def defaultChoice (idx : Int) : ResponseChoice :=
  ⟨idx, ⟨"assistant", ""⟩, "", none⟩

/-- Merging one tool-call delta into one existing tool call (`AddChunk`
lines 534-545): `Type`, `Function.Name` and `Function.Arguments` are each
overwritten by the delta's value when that value is non-empty. -/
def updateToolCall (tc delta : ResponseToolCall) : ResponseToolCall :=
  let tc1 := if delta.Typ ≠ "" then { tc with Typ := delta.Typ } else tc
  let tc2 := if delta.Function.Name ≠ "" then
      { tc1 with Function := { tc1.Function with Name := delta.Function.Name } }
    else tc1
  if delta.Function.Arguments ≠ "" then
    { tc2 with Function := { tc2.Function with Arguments := delta.Function.Arguments } }
  else tc2

/-- The tool call appended when no existing entry matches the delta's `ID`
(`AddChunk` lines 521-533). -/
def freshToolCall (delta : ResponseToolCall) : ResponseToolCall :=
  ⟨delta.ID, delta.CallID, delta.Typ, ⟨delta.Function.Name, delta.Function.Arguments⟩⟩

/-- One iteration of the tool-call loop of `AddChunk` (lines 511-545):
the first entry whose `ID` equals the delta's `ID` is merged in place
(`updateToolCall`); if none matches, a fresh entry is appended at the end. -/
def applyToolCallDelta (tcs : List ResponseToolCall) (delta : ResponseToolCall) :
    List ResponseToolCall :=
  match tcs with
  | [] => [freshToolCall delta]
  | t :: rest =>
    if t.ID = delta.ID then updateToolCall t delta :: rest
    else t :: applyToolCallDelta rest delta

/-- The index-padding loop of `AddChunk` (lines 487-493), in closed form:
`for len(a.Choices) <= choice.Index` appends `defaultChoice(len(a.Choices))`
once per missing position, i.e. `(idx + 1 - len).toNat` times, at indices
`len, len+1, ...`. -/
def padChoices (cs : List ResponseChoice) (idx : Int) : List ResponseChoice :=
  cs ++ (List.range (idx + 1 - cs.length).toNat).map
    (fun k : Nat => defaultChoice ((cs.length : Int) + (k : Int)))

/-- The per-choice body of the `for _, choice := range chunk.Choices` loop of
`AddChunk` (lines 485-553): pad, then update message, tool calls and finish
reason at `choice.Index`.  Go's `a.Choices[choice.Index]` panics when
`choice.Index` is negative; the panic is modelled as `none`. -/
def mergeOneChoice (cs0 : List ResponseChoice) (ch : ResponseStreamChoice) :
    Option (List ResponseChoice) :=
  let cs := padChoices cs0 ch.Index
  if 0 ≤ ch.Index ∧ ch.Index < (cs.length : Int) then
    let old := (cs[ch.Index.toNat]?).getD (defaultChoice 0)
    let m1 := if ch.Delta.Role ≠ "" then { old.Message with Role := ch.Delta.Role }
      else old.Message
    let m2 := if ch.Delta.Content ≠ "" then { m1 with Content := m1.Content ++ ch.Delta.Content }
      else m1
    let tcs : Option (List ResponseToolCall) :=
      if ch.Delta.ToolCalls ≠ [] then
        some (ch.Delta.ToolCalls.foldl applyToolCallDelta (old.ToolCalls.getD []))
      else old.ToolCalls
    let fr := if ch.FinishReason ≠ "" then ch.FinishReason else old.FinishReason
    some (cs.set ch.Index.toNat { old with Message := m2, ToolCalls := tcs, FinishReason := fr })
  else none

/-- Folding `mergeOneChoice` over all choices of a chunk, left to right. -/
def foldChoices (cs : List ResponseChoice) :
    List ResponseStreamChoice → Option (List ResponseChoice)
  | [] => some cs
  | ch :: rest =>
    match mergeOneChoice cs ch with
    | some cs' => foldChoices cs' rest
    | none => none

/-- The first statement block of `AddChunk` (lines 439-466): on the first
chunk carrying a non-empty `ID`, set the scalar identity fields and build
the choice slots. -/
def initStep (a : ResponsesStreamAccumulator) (chunk : ResponseStreamResponse) :
    ResponsesStreamAccumulator :=
  if a.ID = "" ∧ chunk.ID ≠ "" then
    { a with
        ID := chunk.ID, Object := chunk.Object, Created := chunk.Created,
        Model := chunk.Model,
        Choices := if chunk.Choices.length > 0 then
            chunk.Choices.map (fun ch => defaultChoice ch.Index)
          else [defaultChoice 0] }
  else a

/-- The usage statement of `AddChunk` (lines 469-471): store the chunk's
usage when present. -/
def usageStep (a : ResponsesStreamAccumulator) (chunk : ResponseStreamResponse) :
    ResponsesStreamAccumulator :=
  match chunk.Usage with
  | some u => { a with Usage := some u }
  | none => a

/-- The ensure statement of `AddChunk` (lines 474-482): when the chunk has
choices but the accumulator has none, create one default slot. -/
def ensureStep (a : ResponsesStreamAccumulator) (chunk : ResponseStreamResponse) :
    ResponsesStreamAccumulator :=
  if a.Choices = [] ∧ chunk.Choices ≠ [] then
    { a with Choices := [defaultChoice 0] }
  else a

/-- `ResponsesStreamAccumulator.AddChunk` (lines 438-554).  The three
sequential preliminary steps (first-id scalar init, usage store, ensure at
least one choice) followed by the per-choice merge loop.  `none` models the
index-out-of-range panic on a negative choice index. -/
def AddChunk (a : ResponsesStreamAccumulator) (chunk : ResponseStreamResponse) :
    Option ResponsesStreamAccumulator :=
  let a3 := ensureStep (usageStep (initStep a chunk) chunk) chunk
  match foldChoices a3.Choices chunk.Choices with
  | some cs => some { a3 with Choices := cs }
  | none => none

/-- Feeding a list of decoded chunks into the accumulator in order. -/
def feed (a : ResponsesStreamAccumulator) :
    List ResponseStreamResponse → Option ResponsesStreamAccumulator
  | [] => some a
  | c :: rest =>
    match AddChunk a c with
    | some a' => feed a' rest
    | none => none

/-- `ResponsesStreamAccumulator.ToResponse` (lines 557-580): project the
accumulator onto a `ResponseResponse`; a choice's tool-call list is attached
only when non-empty (`if len(choice.ToolCalls) > 0`). -/
def ToResponse (a : ResponsesStreamAccumulator) : ResponseResponse :=
  { ID := a.ID, Object := a.Object, Created := a.Created, Model := a.Model,
    Choices := a.Choices.map (fun ch =>
      { Index := ch.Index, Message := ch.Message, FinishReason := ch.FinishReason,
        ToolCalls := if (ch.ToolCalls.getD []).length > 0 then ch.ToolCalls else none }),
    Usage := a.Usage, OutputText := "" }

/-- The Go method `ToResponse` in state-passing form: the body reads the
receiver and writes only locals, so the outgoing state is the incoming one
unchanged. -/
def ToResponseST (a : ResponsesStreamAccumulator) :
    ResponseResponse × ResponsesStreamAccumulator :=
  (ToResponse a, a)

/-! ## Concrete event builders (test inputs for the claims) -/

/-- A `response.output_text.delta` event carrying `frag`. -/
def evContentDelta (frag : String) : EventData :=
  { EventData.empty with typ := some "response.output_text.delta", delta := some frag }

/-- A `response.created` event. -/
def evCreated (id obj : String) (created : Int) (model : String) : EventData :=
  { EventData.empty with
      typ := some "response.created",
      response := some ⟨some id, some obj, some created, some model, none⟩ }

/-- A `response.output_item.added` event for a function call. -/
def evItemAdded (idx : Int) (id callId name : String) : EventData :=
  { EventData.empty with
      typ := some "response.output_item.added",
      output_index := some idx,
      item := some ⟨some "function_call", some id, some callId, some name, none⟩ }

/-- A `response.output_item.done` event for a function call. -/
def evItemDone (idx : Int) (id callId name args : String) : EventData :=
  { EventData.empty with
      typ := some "response.output_item.done",
      output_index := some idx,
      item := some ⟨some "function_call", some id, some callId, some name, some args⟩ }

/-- A `response.tool_call.created` event. -/
def evToolCallCreated (idx : Int) : EventData :=
  { EventData.empty with typ := some "response.tool_call.created", output_index := some idx }

/-- A `response.function_call_arguments.delta` event. -/
def evFnArgsDelta (idx : Int) (itemId frag : String) : EventData :=
  { EventData.empty with
      typ := some "response.function_call_arguments.delta",
      output_index := some idx, item_id := some itemId, delta := some frag }

/-- A `response.function_call_arguments.done` event. -/
def evFnArgsDone (idx : Int) (itemId args : String) : EventData :=
  { EventData.empty with
      typ := some "response.function_call_arguments.done",
      output_index := some idx, item_id := some itemId, arguments := some args }

/-- A `response.completed` event with usage counts. -/
def evCompleted (id obj : String) (created : Int) (model : String)
    (usage : Option RawUsage) : EventData :=
  { EventData.empty with
      typ := some "response.completed",
      response := some ⟨some id, some obj, some created, some model, usage⟩ }

/-! ## Observers on accumulator state -/

/-- The content buffer of choice slot `i` (empty when the slot is absent). -/
def contentAt (a : ResponsesStreamAccumulator) (i : Nat) : String :=
  ((a.Choices[i]?).map (fun c => c.Message.Content)).getD ""

/-- The role of choice slot `i`. -/
def roleAt (a : ResponsesStreamAccumulator) (i : Nat) : String :=
  ((a.Choices[i]?).map (fun c => c.Message.Role)).getD ""

/-- The finish reason of choice slot `i`. -/
def finishAt (a : ResponsesStreamAccumulator) (i : Nat) : String :=
  ((a.Choices[i]?).map (fun c => c.FinishReason)).getD ""

/-- The tool calls of choice slot `i` (nil and absent both as `[]`). -/
def toolCallsAt (a : ResponsesStreamAccumulator) (i : Nat) : List ResponseToolCall :=
  ((a.Choices[i]?).map (fun c => c.ToolCalls.getD [])).getD []

/-- First tool call whose `ID` equals `x`, mirroring the reconciliation scan. -/
def lookupToolCall : List ResponseToolCall → String → Option ResponseToolCall
  | [], _ => none
  | t :: rest, x => if t.ID = x then some t else lookupToolCall rest x

/-- The `Function.Arguments` buffer of the tool call with identity `x` in
choice slot `i`. -/
def argAt (a : ResponsesStreamAccumulator) (i : Nat) (x : String) : Option String :=
  (lookupToolCall (toolCallsAt a i) x).map (fun t => t.Function.Arguments)

/-- The `Function.Name` of the tool call with identity `x` in choice slot `i`. -/
def nameAt (a : ResponsesStreamAccumulator) (i : Nat) (x : String) : Option String :=
  (lookupToolCall (toolCallsAt a i) x).map (fun t => t.Function.Name)

/-- Chunk shape shared by all decoded tool-call events: one choice at
`idx` holding exactly one tool-call delta. -/
def singleToolChunk (idx : Int) (d : ResponseToolCall) : ResponseStreamResponse :=
  ⟨"", "", 0, "", [⟨idx, ⟨"", "", [d]⟩, ""⟩], none⟩

/-- The discriminator values `Recv` recognizes. -/
def knownEventTypes : List String :=
  ["response.created", "response.in_progress", "response.output_text.delta",
   "response.output_item.added", "response.output_item.done",
   "response.file_search_call.in_progress", "response.file_search_call.searching",
   "response.file_search_call.completed", "response.tool_call.created",
   "response.tool_call.in_progress", "response.tool_call.id",
   "response.function_call_arguments.delta", "response.function_call_arguments.done",
   "response.completed", "response.incomplete"]

/-- A concrete accumulator fixture: identity set, one choice slot holding one
function tool call with identity "x", name "f" and arguments "old". -/
def accW : ResponsesStreamAccumulator :=
  ⟨"id1", "response", 5, "gpt",
   [⟨0, ⟨"assistant", ""⟩, "", some [⟨"x", "", "function", ⟨"f", "old"⟩⟩]⟩], none⟩

/-- A concrete unknown-discriminator event. -/
def evWeird : EventData :=
  ⟨some "weird.event", none, none, none, none, none, none, none⟩

/-- A concrete `response.completed` event with no `response` sub-object. -/
def evCompletedBare : EventData :=
  ⟨some "response.completed", none, none, none, none, none, none, none⟩

/-! ## Helper lemmas -/

theorem processEvent_evFnArgsDelta (idx : Int) (iid s : String) :
    processEvent (evFnArgsDelta idx iid s) = singleToolChunk idx ⟨iid, "", "", ⟨"", s⟩⟩ := rfl

theorem processEvent_evFnArgsDone (idx : Int) (iid s : String) :
    processEvent (evFnArgsDone idx iid s) = singleToolChunk idx ⟨iid, "", "", ⟨"", s⟩⟩ := rfl

theorem processEvent_evItemAdded (idx : Int) (id c n : String) :
    processEvent (evItemAdded idx id c n) = singleToolChunk idx ⟨id, c, "function", ⟨n, ""⟩⟩ := rfl

theorem processEvent_evItemDone (idx : Int) (id c n ar : String) :
    processEvent (evItemDone idx id c n ar) =
      singleToolChunk idx ⟨id, c, "function", ⟨n, ar⟩⟩ := rfl

theorem processEvent_evContentDelta (s : String) :
    processEvent (evContentDelta s) = ⟨"", "", 0, "", [⟨0, ⟨"", s, []⟩, ""⟩], none⟩ := rfl

theorem padChoices_of_lt {cs : List ResponseChoice} {idx : Int}
    (h : idx < (cs.length : Int)) : padChoices cs idx = cs := by
  have h0 : (idx + 1 - (cs.length : Int)).toNat = 0 := by omega
  simp [padChoices, h0]

theorem padChoices_length (cs : List ResponseChoice) (idx : Int) :
    (padChoices cs idx).length = cs.length + (idx + 1 - (cs.length : Int)).toNat := by
  simp only [padChoices, List.length_append, List.length_map, List.length_range]

theorem lt_padChoices_length {idx : Int} (_h : 0 ≤ idx) (cs : List ResponseChoice) :
    idx < ((padChoices cs idx).length : Int) := by
  rw [padChoices_length]; omega

theorem padChoices_getElem?_lt {cs : List ResponseChoice} {idx : Int} {i : Nat}
    (h : i < cs.length) : (padChoices cs idx)[i]? = cs[i]? := by
  simp [padChoices, List.getElem?_append_left h]

theorem padChoices_getElem?_ge {cs : List ResponseChoice} {idx : Int} {i : Nat}
    (h : cs.length ≤ i) (h2 : i < (padChoices cs idx).length) :
    (padChoices cs idx)[i]? =
      some (defaultChoice ((cs.length : Int) + ((i - cs.length : Nat) : Int))) := by
  rw [padChoices_length] at h2
  unfold padChoices
  rw [List.getElem?_append_right h, List.getElem?_map, List.getElem?_range (by omega)]
  rfl

theorem updateToolCall_ID (t d : ResponseToolCall) : (updateToolCall t d).ID = t.ID := by
  unfold updateToolCall; split_ifs <;> rfl

theorem updateToolCall_CallID (t d : ResponseToolCall) :
    (updateToolCall t d).CallID = t.CallID := by
  unfold updateToolCall; split_ifs <;> rfl

theorem updateToolCall_name (t d : ResponseToolCall) :
    (updateToolCall t d).Function.Name =
      if d.Function.Name = "" then t.Function.Name else d.Function.Name := by
  unfold updateToolCall; split_ifs <;> simp_all

theorem updateToolCall_arguments (t d : ResponseToolCall) :
    (updateToolCall t d).Function.Arguments =
      if d.Function.Arguments = "" then t.Function.Arguments else d.Function.Arguments := by
  unfold updateToolCall; split_ifs <;> simp_all

theorem lookupToolCall_applyToolCallDelta (tcs : List ResponseToolCall)
    (d : ResponseToolCall) :
    lookupToolCall (applyToolCallDelta tcs d) d.ID =
      some (match lookupToolCall tcs d.ID with
            | some t => updateToolCall t d
            | none => freshToolCall d) := by
  induction tcs with
  | nil => simp [applyToolCallDelta, lookupToolCall, freshToolCall]
  | cons t rest ih =>
    by_cases h : t.ID = d.ID
    · simp [applyToolCallDelta, lookupToolCall, h, updateToolCall_ID]
    · simp [applyToolCallDelta, lookupToolCall, h, ih]

theorem mergeOneChoice_isSome {ch : ResponseStreamChoice} (h : 0 ≤ ch.Index)
    (cs : List ResponseChoice) : (mergeOneChoice cs ch).isSome := by
  unfold mergeOneChoice
  rw [if_pos ⟨h, lt_padChoices_length h _⟩]
  rfl

theorem mergeOneChoice_length {ch : ResponseStreamChoice} {cs cs' : List ResponseChoice}
    (h : mergeOneChoice cs ch = some cs') :
    cs'.length = (padChoices cs ch.Index).length := by
  simp only [mergeOneChoice] at h
  split at h
  · cases h; simp
  · cases h

theorem length_le_mergeOneChoice {ch : ResponseStreamChoice} {cs cs' : List ResponseChoice}
    (h : mergeOneChoice cs ch = some cs') : cs.length ≤ cs'.length := by
  rw [mergeOneChoice_length h, padChoices_length]; omega

theorem index_lt_mergeOneChoice_length {ch : ResponseStreamChoice}
    {cs cs' : List ResponseChoice} (h : mergeOneChoice cs ch = some cs') :
    ch.Index < (cs'.length : Int) := by
  simp only [mergeOneChoice] at h
  split at h
  · next hc => cases h; simpa using hc.2
  · cases h

theorem mergeOneChoice_toolDelta {cs : List ResponseChoice} {i : Nat}
    (d : ResponseToolCall) (hi : i < cs.length) :
    mergeOneChoice cs ⟨(i : Int), ⟨"", "", [d]⟩, ""⟩ =
      some (cs.set i
        ⟨(cs.get ⟨i, hi⟩).Index, (cs.get ⟨i, hi⟩).Message, (cs.get ⟨i, hi⟩).FinishReason,
         some (applyToolCallDelta ((cs.get ⟨i, hi⟩).ToolCalls.getD []) d)⟩) := by
  have hlt : (i : Int) < (cs.length : Int) := by exact_mod_cast hi
  simp only [mergeOneChoice]
  rw [if_pos ⟨by omega, lt_padChoices_length (by omega) cs⟩]
  simp only [padChoices_of_lt hlt]
  simp [List.getElem?_eq_getElem hi, List.get_eq_getElem]

theorem mergeOneChoice_contentDelta {c0 : ResponseChoice} {cl : List ResponseChoice}
    (f : String) :
    mergeOneChoice (c0 :: cl) ⟨0, ⟨"", f, []⟩, ""⟩ =
      some (⟨c0.Index, ⟨c0.Message.Role, c0.Message.Content ++ f⟩, c0.FinishReason,
             c0.ToolCalls⟩ :: cl) := by
  have hlt : (0 : Int) < ((c0 :: cl).length : Int) := by simp
  simp only [mergeOneChoice]
  rw [if_pos ⟨by omega, lt_padChoices_length (by omega) _⟩]
  simp only [padChoices_of_lt hlt]
  by_cases hf : f = ""
  · simp [hf, String.append_empty]
  · simp [hf]

theorem initStep_of_chunkID {chunk : ResponseStreamResponse} (h : chunk.ID = "")
    (a : ResponsesStreamAccumulator) : initStep a chunk = a :=
  if_neg (fun hc => hc.2 h)

theorem initStep_of_accID {a : ResponsesStreamAccumulator} (h : a.ID ≠ "")
    (chunk : ResponseStreamResponse) : initStep a chunk = a :=
  if_neg (fun hc => h hc.1)

theorem usageStep_ID (a : ResponsesStreamAccumulator) (c : ResponseStreamResponse) :
    (usageStep a c).ID = a.ID := by unfold usageStep; split <;> rfl

theorem usageStep_Object (a : ResponsesStreamAccumulator) (c : ResponseStreamResponse) :
    (usageStep a c).Object = a.Object := by unfold usageStep; split <;> rfl

theorem usageStep_Created (a : ResponsesStreamAccumulator) (c : ResponseStreamResponse) :
    (usageStep a c).Created = a.Created := by unfold usageStep; split <;> rfl

theorem usageStep_Model (a : ResponsesStreamAccumulator) (c : ResponseStreamResponse) :
    (usageStep a c).Model = a.Model := by unfold usageStep; split <;> rfl

theorem usageStep_Choices (a : ResponsesStreamAccumulator) (c : ResponseStreamResponse) :
    (usageStep a c).Choices = a.Choices := by unfold usageStep; split <;> rfl

theorem usageStep_of_none {c : ResponseStreamResponse} (h : c.Usage = none)
    (a : ResponsesStreamAccumulator) : usageStep a c = a := by unfold usageStep; rw [h]

theorem ensureStep_ID (a : ResponsesStreamAccumulator) (c : ResponseStreamResponse) :
    (ensureStep a c).ID = a.ID := by unfold ensureStep; split <;> rfl

theorem ensureStep_Object (a : ResponsesStreamAccumulator) (c : ResponseStreamResponse) :
    (ensureStep a c).Object = a.Object := by unfold ensureStep; split <;> rfl

theorem ensureStep_Created (a : ResponsesStreamAccumulator) (c : ResponseStreamResponse) :
    (ensureStep a c).Created = a.Created := by unfold ensureStep; split <;> rfl

theorem ensureStep_Model (a : ResponsesStreamAccumulator) (c : ResponseStreamResponse) :
    (ensureStep a c).Model = a.Model := by unfold ensureStep; split <;> rfl

theorem ensureStep_Usage (a : ResponsesStreamAccumulator) (c : ResponseStreamResponse) :
    (ensureStep a c).Usage = a.Usage := by unfold ensureStep; split <;> rfl

theorem ensureStep_of_ne_nil {a : ResponsesStreamAccumulator} (h : a.Choices ≠ [])
    (c : ResponseStreamResponse) : ensureStep a c = a := by
  unfold ensureStep; exact if_neg (fun hc => h hc.1)

theorem ensureStep_length_le (a : ResponsesStreamAccumulator) (c : ResponseStreamResponse) :
    a.Choices.length ≤ (ensureStep a c).Choices.length := by
  unfold ensureStep; split
  · next hc => simp [hc.1]
  · exact le_refl _

theorem foldChoices_isSome {l : List ResponseStreamChoice}
    (h : ∀ ch ∈ l, 0 ≤ ch.Index) (cs : List ResponseChoice) :
    (foldChoices cs l).isSome := by
  induction l generalizing cs with
  | nil => rfl
  | cons ch rest ih =>
    have h1 : 0 ≤ ch.Index := h ch (by simp)
    obtain ⟨cs', hcs'⟩ := Option.isSome_iff_exists.mp (mergeOneChoice_isSome h1 cs)
    simp only [foldChoices, hcs']
    exact ih (fun x hx => h x (by simp [hx])) cs'

theorem foldChoices_length_le {l : List ResponseStreamChoice}
    {cs cs' : List ResponseChoice} (h : foldChoices cs l = some cs') :
    cs.length ≤ cs'.length := by
  induction l generalizing cs with
  | nil => simp only [foldChoices] at h; cases h; exact le_refl _
  | cons ch rest ih =>
    simp only [foldChoices] at h
    split at h
    · next cs1 hcs1 => exact le_trans (length_le_mergeOneChoice hcs1) (ih h)
    · cases h

theorem foldChoices_singleton (cs : List ResponseChoice) (ch : ResponseStreamChoice) :
    foldChoices cs [ch] = mergeOneChoice cs ch := by
  cases h : mergeOneChoice cs ch <;> simp [foldChoices, h]

theorem AddChunk_scalars {a a' : ResponsesStreamAccumulator} {c : ResponseStreamResponse}
    (hs : AddChunk a c = some a') :
    a'.ID = (initStep a c).ID ∧ a'.Object = (initStep a c).Object ∧
    a'.Created = (initStep a c).Created ∧ a'.Model = (initStep a c).Model ∧
    a'.Usage = (usageStep (initStep a c) c).Usage := by
  simp only [AddChunk] at hs
  split at hs
  · next cs1 hcs1 =>
    cases hs
    simp [ensureStep_ID, ensureStep_Object, ensureStep_Created, ensureStep_Model,
      ensureStep_Usage, usageStep_ID, usageStep_Object, usageStep_Created, usageStep_Model]
  · cases hs

theorem AddChunk_singleToolChunk {a : ResponsesStreamAccumulator} {i : Nat}
    (d : ResponseToolCall) (hi : i < a.Choices.length) :
    AddChunk a (singleToolChunk (i : Int) d) =
      some { a with
               Choices := a.Choices.set i
                 ⟨(a.Choices.get ⟨i, hi⟩).Index, (a.Choices.get ⟨i, hi⟩).Message,
                  (a.Choices.get ⟨i, hi⟩).FinishReason,
                  some (applyToolCallDelta ((a.Choices.get ⟨i, hi⟩).ToolCalls.getD []) d)⟩ } := by
  have hne : a.Choices ≠ [] := by
    intro hc; rw [hc] at hi; simp at hi
  have h1 : initStep a (singleToolChunk (i : Int) d) = a := initStep_of_chunkID rfl a
  have h2 : usageStep a (singleToolChunk (i : Int) d) = a := usageStep_of_none rfl a
  have h3 : ensureStep a (singleToolChunk (i : Int) d) = a := ensureStep_of_ne_nil hne _
  simp only [AddChunk, h1, h2, h3]
  rw [show (singleToolChunk (i : Int) d).Choices = [⟨(i : Int), ⟨"", "", [d]⟩, ""⟩] from rfl,
    foldChoices_singleton, mergeOneChoice_toolDelta d hi]

theorem AddChunk_contentDelta (a : ResponsesStreamAccumulator) (f : String) :
    (AddChunk a (processEvent (evContentDelta f))).map (fun b => contentAt b 0) =
      some (contentAt a 0 ++ f) := by
  rw [processEvent_evContentDelta]
  have h1 : initStep a ⟨"", "", 0, "", [⟨0, ⟨"", f, []⟩, ""⟩], none⟩ = a :=
    initStep_of_chunkID rfl a
  have h2 : usageStep a ⟨"", "", 0, "", [⟨0, ⟨"", f, []⟩, ""⟩], none⟩ = a :=
    usageStep_of_none rfl a
  cases hcs : a.Choices with
  | nil =>
    simp only [AddChunk, h1, h2]
    rw [show ensureStep a ⟨"", "", 0, "", [⟨0, ⟨"", f, []⟩, ""⟩], none⟩
          = { a with Choices := [defaultChoice 0] } from by
        unfold ensureStep; rw [if_pos ⟨hcs, by simp⟩]]
    simp [foldChoices_singleton, mergeOneChoice_contentDelta, contentAt, defaultChoice, hcs]
  | cons c0 cl =>
    have h3 : ensureStep a ⟨"", "", 0, "", [⟨0, ⟨"", f, []⟩, ""⟩], none⟩ = a :=
      ensureStep_of_ne_nil (by rw [hcs]; simp) _
    simp only [AddChunk, h1, h2, h3]
    simp [foldChoices_singleton, mergeOneChoice_contentDelta, contentAt, hcs]

theorem lookupToolCall_after_singleToolChunk {a : ResponsesStreamAccumulator} {i : Nat}
    (d : ResponseToolCall) (hi : i < a.Choices.length) :
    (AddChunk a (singleToolChunk (i : Int) d)).map
        (fun b => lookupToolCall (toolCallsAt b i) d.ID) =
      some (some (match lookupToolCall (toolCallsAt a i) d.ID with
                  | some t => updateToolCall t d
                  | none => freshToolCall d)) := by
  rw [AddChunk_singleToolChunk d hi]
  have hset : i < (a.Choices.set i
      ⟨(a.Choices.get ⟨i, hi⟩).Index, (a.Choices.get ⟨i, hi⟩).Message,
       (a.Choices.get ⟨i, hi⟩).FinishReason,
       some (applyToolCallDelta ((a.Choices.get ⟨i, hi⟩).ToolCalls.getD []) d)⟩).length := by
    simpa using hi
  simp only [Option.map_some']
  simp [toolCallsAt, List.getElem?_set_self (by simpa using hi),
    lookupToolCall_applyToolCallDelta, List.getElem?_eq_getElem hi, List.get_eq_getElem]

theorem AddChunk_isSome (a : ResponsesStreamAccumulator) {c : ResponseStreamResponse}
    (h : ∀ ch ∈ c.Choices, 0 ≤ ch.Index) : (AddChunk a c).isSome := by
  simp only [AddChunk]
  obtain ⟨cs, hcs⟩ := Option.isSome_iff_exists.mp (foldChoices_isSome h _)
  rw [hcs]
  rfl

theorem AddChunk_length_le {a a' : ResponsesStreamAccumulator} {c : ResponseStreamResponse}
    (h : c.ID = "") (hs : AddChunk a c = some a') :
    a.Choices.length ≤ a'.Choices.length := by
  simp only [AddChunk, initStep_of_chunkID h] at hs
  split at hs
  · next cs1 hcs1 =>
    cases hs
    calc a.Choices.length
        = (usageStep a c).Choices.length := by rw [usageStep_Choices]
      _ ≤ (ensureStep (usageStep a c) c).Choices.length := ensureStep_length_le _ _
      _ ≤ cs1.length := foldChoices_length_le hcs1
  · cases hs

theorem AddChunk_preserves_scalars {a a' : ResponsesStreamAccumulator}
    {c : ResponseStreamResponse} (h : a.ID ≠ "") (hs : AddChunk a c = some a') :
    a'.ID = a.ID ∧ a'.Object = a.Object ∧ a'.Created = a.Created ∧ a'.Model = a.Model := by
  obtain ⟨h1, h2, h3, h4, _⟩ := AddChunk_scalars hs
  rw [initStep_of_accID h] at h1 h2 h3 h4
  exact ⟨h1, h2, h3, h4⟩

theorem feed_preserves_scalars {cs : List ResponseStreamResponse}
    {a a' : ResponsesStreamAccumulator} (h : a.ID ≠ "") (hs : feed a cs = some a') :
    a'.ID = a.ID ∧ a'.Object = a.Object ∧ a'.Created = a.Created ∧ a'.Model = a.Model := by
  induction cs generalizing a with
  | nil => simp only [feed] at hs; cases hs; exact ⟨rfl, rfl, rfl, rfl⟩
  | cons c rest ih =>
    simp only [feed] at hs
    split at hs
    · next a1 ha1 =>
      obtain ⟨e1, e2, e3, e4⟩ := AddChunk_preserves_scalars h ha1
      have h1 : a1.ID ≠ "" := by rw [e1]; exact h
      obtain ⟨f1, f2, f3, f4⟩ := ih h1 hs
      exact ⟨by rw [f1, e1], by rw [f2, e2], by rw [f3, e3], by rw [f4, e4]⟩
    · cases hs

theorem stringJoin_cons (f : String) (rest : List String) :
    String.join (f :: rest) = f ++ String.join rest := by
  rw [String.join_eq, String.join_eq]
  simp only [List.map_cons, List.flatten_cons]
  rfl

theorem feed_contentDelta (frags : List String) (a : ResponsesStreamAccumulator) :
    (feed a (frags.map (fun f => processEvent (evContentDelta f)))).map
        (fun b => contentAt b 0) =
      some (contentAt a 0 ++ String.join frags) := by
  induction frags generalizing a with
  | nil => simp [feed, String.join, String.append_empty]
  | cons f rest ih =>
    have hstep := AddChunk_contentDelta a f
    cases hadd : AddChunk a (processEvent (evContentDelta f)) with
    | none => rw [hadd] at hstep; cases hstep
    | some a1 =>
      rw [hadd] at hstep
      simp only [Option.map_some'] at hstep
      have hc1 : contentAt a1 0 = contentAt a 0 ++ f := Option.some.inj hstep
      simp only [List.map_cons, feed, hadd]
      rw [ih a1, hc1, stringJoin_cons, String.append_assoc]

set_option maxHeartbeats 1000000 in
theorem processEvent_ID_or_choices (d : EventData) :
    (processEvent d).ID = "" ∨ (processEvent d).Choices = [] := by
  simp only [processEvent]
  by_cases h1 : (d.typ.getD "" = "response.created" ∨ d.typ.getD "" = "response.in_progress")
  · rw [if_pos h1]
    rcases d.response with _ | rd <;> simp [emptyStreamResponse]
  rw [if_neg h1]
  by_cases h2 : d.typ.getD "" = "response.output_text.delta"
  · rw [if_pos h2]; simp [emptyStreamResponse]
  rw [if_neg h2]
  by_cases h3 : d.typ.getD "" = "response.output_item.added"
  · rw [if_pos h3]
    rcases d.item with _ | it <;> rcases d.output_index with _ | idx <;>
      (repeat' split) <;> simp_all [emptyStreamResponse]
  rw [if_neg h3]
  by_cases h4 : d.typ.getD "" = "response.output_item.done"
  · rw [if_pos h4]
    rcases d.item with _ | it <;> rcases d.output_index with _ | idx <;>
      (repeat' split) <;> simp_all [emptyStreamResponse]
  rw [if_neg h4]
  by_cases h5 : (d.typ.getD "" = "response.file_search_call.in_progress" ∨
      d.typ.getD "" = "response.file_search_call.searching" ∨
      d.typ.getD "" = "response.file_search_call.completed")
  · rw [if_pos h5]
    rcases d.output_index with _ | idx <;> rcases d.item_id with _ | iid <;>
      simp [emptyStreamResponse]
  rw [if_neg h5]
  by_cases h6 : (d.typ.getD "" = "response.tool_call.created" ∨
      d.typ.getD "" = "response.tool_call.in_progress")
  · rw [if_pos h6]
    rcases d.output_index with _ | idx <;> simp [emptyStreamResponse]
  rw [if_neg h6]
  by_cases h7 : d.typ.getD "" = "response.tool_call.id"
  · rw [if_pos h7]
    rcases d.id with _ | tcid <;> rcases d.output_index with _ | idx <;>
      simp [emptyStreamResponse]
  rw [if_neg h7]
  by_cases h8 : d.typ.getD "" = "response.function_call_arguments.delta"
  · rw [if_pos h8]
    rcases d.delta with _ | dl <;> rcases d.output_index with _ | idx <;>
      rcases d.item_id with _ | iid <;> simp [emptyStreamResponse]
  rw [if_neg h8]
  by_cases h9 : d.typ.getD "" = "response.function_call_arguments.done"
  · rw [if_pos h9]
    rcases d.arguments with _ | ar <;> rcases d.output_index with _ | idx <;>
      rcases d.item_id with _ | iid <;> simp [emptyStreamResponse]
  rw [if_neg h9]
  by_cases h10 : (d.typ.getD "" = "response.completed" ∨ d.typ.getD "" = "response.incomplete")
  · rw [if_pos h10]
    rcases d.response with _ | rd <;> simp [emptyStreamResponse]
  rw [if_neg h10]
  simp [emptyStreamResponse]

theorem processEvent_unknown {d : EventData} (h : d.typ.getD "" ∉ knownEventTypes) :
    processEvent d = emptyStreamResponse := by
  simp only [knownEventTypes, List.mem_cons, List.not_mem_nil, or_false, not_or] at h
  obtain ⟨h1, h2, h3, h4, h5, h6, h7, h8, h9, h10, h11, h12, h13, h14, h15⟩ := h
  simp [processEvent, h1, h2, h3, h4, h5, h6, h7, h8, h9, h10, h11, h12, h13, h14, h15]

theorem AddChunk_lookup_update {a : ResponsesStreamAccumulator} {i : Nat}
    {t0 : ResponseToolCall} (d : ResponseToolCall) (hi : i < a.Choices.length)
    (hlook : lookupToolCall (toolCallsAt a i) d.ID = some t0) :
    (AddChunk a (singleToolChunk (i : Int) d)).map
        (fun b => lookupToolCall (toolCallsAt b i) d.ID) =
      some (some (updateToolCall t0 d)) := by
  have h := lookupToolCall_after_singleToolChunk d hi
  rw [hlook] at h
  exact h

theorem AddChunk_argAt_update {a : ResponsesStreamAccumulator} {i : Nat}
    {t0 : ResponseToolCall} (d : ResponseToolCall) (hi : i < a.Choices.length)
    (hlook : lookupToolCall (toolCallsAt a i) d.ID = some t0) :
    (AddChunk a (singleToolChunk (i : Int) d)).map (fun b => argAt b i d.ID) =
      some (some (if d.Function.Arguments = "" then t0.Function.Arguments
                  else d.Function.Arguments)) := by
  have h := AddChunk_lookup_update d hi hlook
  cases hadd : AddChunk a (singleToolChunk (i : Int) d) with
  | none => rw [hadd] at h; cases h
  | some b =>
    rw [hadd] at h
    simp only [Option.map_some'] at h ⊢
    rw [show argAt b i d.ID = (lookupToolCall (toolCallsAt b i) d.ID).map
          (fun t => t.Function.Arguments) from rfl,
      Option.some.inj h]
    simp [updateToolCall_arguments]

theorem AddChunk_nameAt_update {a : ResponsesStreamAccumulator} {i : Nat}
    {t0 : ResponseToolCall} (d : ResponseToolCall) (hi : i < a.Choices.length)
    (hlook : lookupToolCall (toolCallsAt a i) d.ID = some t0) :
    (AddChunk a (singleToolChunk (i : Int) d)).map (fun b => nameAt b i d.ID) =
      some (some (if d.Function.Name = "" then t0.Function.Name else d.Function.Name)) := by
  have h := AddChunk_lookup_update d hi hlook
  cases hadd : AddChunk a (singleToolChunk (i : Int) d) with
  | none => rw [hadd] at h; cases h
  | some b =>
    rw [hadd] at h
    simp only [Option.map_some'] at h ⊢
    rw [show nameAt b i d.ID = (lookupToolCall (toolCallsAt b i) d.ID).map
          (fun t => t.Function.Name) from rfl,
      Option.some.inj h]
    simp [updateToolCall_name]

theorem Recv_sticky {e : GoError} {s : StreamState} (h : s.err = some e) :
    Recv s = (.error e, s) := by
  simp [Recv, h]

theorem Recv_skip {d : EventData} (he : isEmptyResp (processEvent d) = true)
    (ht : isTerminal d = false) (rest : List Frame) :
    Recv ⟨Frame.event d :: rest, none⟩ = Recv ⟨rest, none⟩ := by
  simp [Recv, recvFrames, he, ht]

theorem Recv_terminal_empty {d : EventData} (he : isEmptyResp (processEvent d) = true)
    (ht : isTerminal d = true) (rest : List Frame) :
    Recv ⟨Frame.event d :: rest, none⟩ = (.error .eof, ⟨rest, some .eof⟩) := by
  simp [Recv, recvFrames, he, ht]

theorem Recv_surface {d : EventData} (he : isEmptyResp (processEvent d) = false)
    (rest : List Frame) :
    Recv ⟨Frame.event d :: rest, none⟩ =
      (.ok (processEvent d), ⟨rest, if isTerminal d then some .eof else none⟩) := by
  simp [Recv, recvFrames, he]

/-- C8: reading a frame whose payload is exactly the sentinel `[DONE]` ends
decoding successfully: `Recv` returns end-of-stream (`io.EOF`), decodes no
further frame (the next call returns immediately with the same state), and
`Err` reports no error — the same outcome as ordinary end-of-data from the
transport (an empty input). -/
theorem C8_done_sentinel (rest : List Frame) :
    Recv ⟨Frame.doneMark :: rest, none⟩ = (.error .eof, ⟨rest, some .eof⟩) ∧
    StreamState.Err ⟨rest, some .eof⟩ = none ∧
    Recv ⟨rest, some .eof⟩ = (.error .eof, ⟨rest, some .eof⟩) ∧
    Recv ⟨[], none⟩ = (.error .eof, ⟨[], some .eof⟩) ∧
    StreamState.Err ⟨[], some .eof⟩ = none :=
  ⟨rfl, rfl, rfl, rfl, rfl⟩

/-- C10: the `Recv` call that decodes a terminal frame
(`response.completed` / `response.incomplete`) whose response object carries
a non-empty id returns that decoded event itself (hence with its usage
counts) with no error; only the next `Recv` reports end-of-stream, and that
next call consumes no further input (the frame list is unchanged). -/
theorem C10_terminal_event_returned (d : EventData) (rest : List Frame)
    (ht : isTerminal d = true) (hid : (processEvent d).ID ≠ "") :
    Recv ⟨Frame.event d :: rest, none⟩ = (.ok (processEvent d), ⟨rest, some .eof⟩) ∧
    Recv ⟨rest, some .eof⟩ = (.error .eof, ⟨rest, some .eof⟩) := by
  have hbeq : ((processEvent d).ID == "") = false := beq_eq_false_iff_ne.mpr hid
  have he : isEmptyResp (processEvent d) = false := by
    unfold isEmptyResp; rw [hbeq]; simp
  refine ⟨?_, rfl⟩
  rw [Recv_surface he rest, ht]
  rfl

/-- Witness for C10 at a concrete completed event carrying id and usage. -/
theorem C10_terminal_event_returned_witness :
    isTerminal (evCompleted "id9" "response" 7 "m" (some ⟨some 1, some 2, some 3⟩)) = true ∧
    (processEvent (evCompleted "id9" "response" 7 "m" (some ⟨some 1, some 2, some 3⟩))).ID ≠ "" ∧
    Recv ⟨[Frame.event (evCompleted "id9" "response" 7 "m" (some ⟨some 1, some 2, some 3⟩))],
          none⟩ =
      (.ok (processEvent (evCompleted "id9" "response" 7 "m" (some ⟨some 1, some 2, some 3⟩))),
       ⟨[], some .eof⟩) ∧
    (processEvent (evCompleted "id9" "response" 7 "m"
        (some ⟨some 1, some 2, some 3⟩))).Usage = some ⟨1, 2, 3⟩ :=
  ⟨by decide, by decide,
   (C10_terminal_event_returned
      (evCompleted "id9" "response" 7 "m" (some ⟨some 1, some 2, some 3⟩)) []
      (by decide) (by decide)).1,
   by decide⟩

/-- C9: the materializer `ToResponse` is a pure projection of the
accumulator: in state-passing form it leaves the state unchanged, a second
call on that unchanged state returns an equal document, the scalar fields
and usage are copied, the choice count is preserved, and a choice's
tool-call list is attached iff it is non-empty (otherwise the output field
stays nil). -/
theorem C9_materializer_pure_projection (a : ResponsesStreamAccumulator) :
    (ToResponseST a).2 = a ∧
    (ToResponseST ((ToResponseST a).2)).1 = (ToResponseST a).1 ∧
    (ToResponse a).ID = a.ID ∧ (ToResponse a).Object = a.Object ∧
    (ToResponse a).Created = a.Created ∧ (ToResponse a).Model = a.Model ∧
    (ToResponse a).Usage = a.Usage ∧
    (ToResponse a).Choices.length = a.Choices.length ∧
    (∀ i : Nat, ((ToResponse a).Choices[i]?).map (fun c => c.ToolCalls) =
      (a.Choices[i]?).map (fun c =>
        if (c.ToolCalls.getD []).length > 0 then c.ToolCalls else none)) := by
  refine ⟨rfl, rfl, rfl, rfl, rfl, rfl, rfl, by simp [ToResponse], ?_⟩
  intro i
  simp only [ToResponse, List.getElem?_map, Option.map_map]
  cases a.Choices[i]? <;> rfl

theorem padChoices_spec (cs : List ResponseChoice) (idx : Int) (hidx : 0 ≤ idx) :
    (padChoices cs idx).length = max cs.length (idx.toNat + 1) ∧
    (∀ j : Nat, j < cs.length → (padChoices cs idx)[j]? = cs[j]?) ∧
    (∀ j : Nat, cs.length ≤ j → j < (padChoices cs idx).length →
        (padChoices cs idx)[j]? = some (defaultChoice (j : Int))) := by
  refine ⟨?_, fun j hj => padChoices_getElem?_lt hj, fun j hj hj2 => ?_⟩
  · rw [padChoices_length]; omega
  · rw [padChoices_getElem?_ge hj hj2]
    have he : ((cs.length : Int) + ((j - cs.length : Nat) : Int)) = (j : Int) := by omega
    rw [he]

theorem mergeOneChoice_getElem?_ne {cs cs' : List ResponseChoice}
    {ch : ResponseStreamChoice} (h : mergeOneChoice cs ch = some cs')
    (j : Nat) (hj : j ≠ ch.Index.toNat) :
    cs'[j]? = (padChoices cs ch.Index)[j]? := by
  simp only [mergeOneChoice] at h
  split at h
  · cases h
    exact List.getElem?_set_ne (fun hc => hj hc.symm)
  · cases h

theorem foldChoices_index_lt {l : List ResponseStreamChoice} {cs cs' : List ResponseChoice}
    (h : foldChoices cs l = some cs') :
    ∀ ch ∈ l, ch.Index < (cs'.length : Int) := by
  induction l generalizing cs with
  | nil => intro ch hch; cases hch
  | cons c0 rest ih =>
    simp only [foldChoices] at h
    split at h
    · next cs1 hcs1 =>
      intro ch hch
      rcases List.mem_cons.mp hch with hc | hc
      · subst hc
        have h1 := index_lt_mergeOneChoice_length hcs1
        have h2 := foldChoices_length_le h
        omega
      · exact ih h ch hc
    · cases h

theorem AddChunk_index_lt {a a' : ResponsesStreamAccumulator} {c : ResponseStreamResponse}
    (hs : AddChunk a c = some a') :
    ∀ ch ∈ c.Choices, ch.Index < (a'.Choices.length : Int) := by
  simp only [AddChunk] at hs
  split at hs
  · next cs1 hcs1 =>
    cases hs
    exact foldChoices_index_lt hcs1
  · cases hs

/-- C5: for every merge of an event referencing a choice index, the choice
sequence is first extended with freshly defaulted slots until that index is
in range, and is never truncated.  Universally: (1) any decoded event
carrying choices has an empty id, so the id-init path (the only one that
rebuilds the choice slice) never runs during such a merge; (2) a successful
merge of an event with empty id never shrinks the choice sequence; (3) for
every choice list and every non-negative index, the padding step extends the
list to length exactly `max length (index+1)` (so the index is in range),
leaves every existing slot untouched, and makes every appended slot a
freshly defaulted one (role "assistant", empty content, empty finish reason,
nil tool calls, positional index); (4) the result of merging one event
choice is the padded sequence, updated only at the referenced index, which
is in range; (5) after any successful merge, every choice index the event
referenced is in range of the resulting sequence; (6) concretely, an event
referencing choice index 2 on a fresh accumulator yields 3 slots, slots 0
and 1 defaulted to role "assistant", empty content and empty finish
reason. -/
theorem C5_index_padding :
    (∀ d : EventData, (processEvent d).Choices ≠ [] → (processEvent d).ID = "") ∧
    (∀ (a a' : ResponsesStreamAccumulator) (c : ResponseStreamResponse),
        c.ID = "" → AddChunk a c = some a' → a.Choices.length ≤ a'.Choices.length) ∧
    (∀ (cs : List ResponseChoice) (idx : Int), 0 ≤ idx →
        (padChoices cs idx).length = max cs.length (idx.toNat + 1) ∧
        (∀ j : Nat, j < cs.length → (padChoices cs idx)[j]? = cs[j]?) ∧
        (∀ j : Nat, cs.length ≤ j → j < (padChoices cs idx).length →
            (padChoices cs idx)[j]? = some (defaultChoice (j : Int)))) ∧
    (∀ (cs cs' : List ResponseChoice) (ch : ResponseStreamChoice),
        mergeOneChoice cs ch = some cs' →
        ch.Index < (cs'.length : Int) ∧
        cs'.length = (padChoices cs ch.Index).length ∧
        (∀ j : Nat, j ≠ ch.Index.toNat → cs'[j]? = (padChoices cs ch.Index)[j]?)) ∧
    (∀ (a a' : ResponsesStreamAccumulator) (c : ResponseStreamResponse),
        AddChunk a c = some a' →
        ∀ ch ∈ c.Choices, ch.Index < (a'.Choices.length : Int)) ∧
    ((AddChunk accZero (processEvent (evToolCallCreated 2))).map
        (fun a => (a.Choices.length, roleAt a 0, contentAt a 0, finishAt a 0,
                   roleAt a 1, contentAt a 1, finishAt a 1)) =
      some (3, "assistant", "", "", "assistant", "", "")) := by
  refine ⟨?_, ?_, padChoices_spec, ?_, ?_, rfl⟩
  · intro d h
    rcases processEvent_ID_or_choices d with h1 | h1
    · exact h1
    · exact absurd h1 h
  · intro a a' c h hs
    exact AddChunk_length_le h hs
  · intro cs cs' ch h
    exact ⟨index_lt_mergeOneChoice_length h, mergeOneChoice_length h,
      fun j hj => mergeOneChoice_getElem?_ne h j hj⟩
  · intro a a' c hs
    exact AddChunk_index_lt hs

/-- Witness for C5 at a concrete merge with empty chunk id: the sequence is
never truncated, the padding characterization applies at index 2, and the
referenced index ends up in range. -/
theorem C5_index_padding_witness :
    (processEvent (evToolCallCreated 2)).ID = "" ∧
    AddChunk accW (processEvent (evToolCallCreated 2)) =
      some { accW with
               Choices := accW.Choices ++ [defaultChoice 1,
                 ⟨2, ⟨"assistant", ""⟩, "", some [⟨"", "", "", ⟨"", ""⟩⟩]⟩] } ∧
    accW.Choices.length ≤ (accW.Choices ++ [defaultChoice 1,
      ⟨2, ⟨"assistant", ""⟩, "", some [⟨"", "", "", ⟨"", ""⟩⟩]⟩]).length ∧
    (padChoices accW.Choices 2).length = max accW.Choices.length ((2 : Int).toNat + 1) ∧
    (2 : Int) < (({ accW with
        Choices := accW.Choices ++ [defaultChoice 1,
          ⟨2, ⟨"assistant", ""⟩, "", some [⟨"", "", "", ⟨"", ""⟩⟩]⟩] } :
      ResponsesStreamAccumulator).Choices.length : Int) :=
  ⟨by decide, by decide,
   C5_index_padding.2.1 accW
     { accW with
         Choices := accW.Choices ++ [defaultChoice 1,
           ⟨2, ⟨"assistant", ""⟩, "", some [⟨"", "", "", ⟨"", ""⟩⟩]⟩] }
     (processEvent (evToolCallCreated 2)) (by decide) (by decide),
   (C5_index_padding.2.2.1 accW.Choices 2 (by decide)).1,
   C5_index_padding.2.2.2.2.1 accW
     { accW with
         Choices := accW.Choices ++ [defaultChoice 1,
           ⟨2, ⟨"assistant", ""⟩, "", some [⟨"", "", "", ⟨"", ""⟩⟩]⟩] }
     (processEvent (evToolCallCreated 2)) (by decide)
     ⟨2, ⟨"", "", [⟨"", "", "", ⟨"", ""⟩⟩]⟩, ""⟩ (by decide)⟩

/-- C6: for the content choice slot, feeding a sequence of
`response.output_text.delta` events appends each fragment in arrival order:
the final content is the initial content followed by the concatenation of
all fragments; in particular "Hello", ", ", "world" yield exactly
"Hello, world". -/
theorem C6_content_monotonicity :
    (∀ (a : ResponsesStreamAccumulator) (frags : List String),
        (feed a (frags.map (fun f => processEvent (evContentDelta f)))).map
            (fun b => contentAt b 0) = some (contentAt a 0 ++ String.join frags)) ∧
    (feed accZero (["Hello", ", ", "world"].map
        (fun f => processEvent (evContentDelta f)))).map (fun b => contentAt b 0) =
      some "Hello, world" :=
  ⟨fun a frags => feed_contentDelta frags a, by decide⟩

/-- C2 (counterexample): `AddChunk` is not total on every decoder-produced
event: a `response.tool_call.created` event with `output_index` `-1` decodes
to a chunk whose choice has index `-1`, and folding it panics in Go
(`a.Choices[-1]` after a padding loop that never runs), modelled here as
`none`. -/
theorem C2_counterexample :
    AddChunk accZero (processEvent (evToolCallCreated (-1))) = none ∧
    (processEvent (evToolCallCreated (-1))).Choices.length = 1 := by
  exact ⟨by decide, by decide⟩

/-- C2 (amended): the merge is total on every decoded event whose choice
indices are all non-negative (which includes everything a real stream's
`output_index` values produce): folding such an event always succeeds. -/
theorem C2_merge_total_nonneg (a : ResponsesStreamAccumulator)
    (c : ResponseStreamResponse) (h : ∀ ch ∈ c.Choices, 0 ≤ ch.Index) :
    (AddChunk a c).isSome :=
  AddChunk_isSome a h

/-- Witness for C2 at a concrete event. -/
theorem C2_merge_total_nonneg_witness :
    (∀ ch ∈ (processEvent (evToolCallCreated 2)).Choices, 0 ≤ ch.Index) ∧
    (AddChunk accW (processEvent (evToolCallCreated 2))).isSome :=
  ⟨by decide, C2_merge_total_nonneg accW (processEvent (evToolCallCreated 2)) (by decide)⟩

/-- C3: the scalar identity fields have first-write-wins semantics: the
first chunk carrying a non-empty id sets id, object kind, created-at and
model; afterwards no sequence of further chunks changes them, and
materializing after any longer prefix still yields the same four values. -/
theorem C3_identity_fields_stable :
    (∀ (a a' : ResponsesStreamAccumulator) (c : ResponseStreamResponse),
        a.ID = "" → c.ID ≠ "" → AddChunk a c = some a' →
        a'.ID = c.ID ∧ a'.Object = c.Object ∧ a'.Created = c.Created ∧ a'.Model = c.Model) ∧
    (∀ (a a' : ResponsesStreamAccumulator) (cs : List ResponseStreamResponse),
        a.ID ≠ "" → feed a cs = some a' →
        a'.ID = a.ID ∧ a'.Object = a.Object ∧ a'.Created = a.Created ∧ a'.Model = a.Model ∧
        (ToResponse a').ID = a.ID ∧ (ToResponse a').Object = a.Object ∧
        (ToResponse a').Created = a.Created ∧ (ToResponse a').Model = a.Model) := by
  constructor
  · intro a a' c h1 h2 hs
    obtain ⟨e1, e2, e3, e4, _⟩ := AddChunk_scalars hs
    have hpos : initStep a c = { a with
        ID := c.ID, Object := c.Object, Created := c.Created, Model := c.Model,
        Choices := if c.Choices.length > 0 then
            c.Choices.map (fun ch => defaultChoice ch.Index)
          else [defaultChoice 0] } := by
      unfold initStep; rw [if_pos ⟨h1, h2⟩]
    rw [hpos] at e1 e2 e3 e4
    exact ⟨e1, e2, e3, e4⟩
  · intro a a' cs h hs
    obtain ⟨e1, e2, e3, e4⟩ := feed_preserves_scalars h hs
    exact ⟨e1, e2, e3, e4, e1, e2, e3, e4⟩

/-- Witness for C3: set identity from a created event, then feed a
completed event carrying a different id; the identity is unchanged. -/
theorem C3_identity_fields_stable_witness :
    accW.ID ≠ "" ∧
    feed accW [processEvent (evCompleted "id2" "o2" 9 "m2" none)] = some accW ∧
    (accW.ID = accW.ID ∧ accW.Object = accW.Object ∧ accW.Created = accW.Created ∧
     accW.Model = accW.Model ∧
     (ToResponse accW).ID = accW.ID ∧ (ToResponse accW).Object = accW.Object ∧
     (ToResponse accW).Created = accW.Created ∧ (ToResponse accW).Model = accW.Model) :=
  ⟨by decide, by decide,
   C3_identity_fields_stable.2 accW accW [processEvent (evCompleted "id2" "o2" 9 "m2" none)]
     (by decide) (by decide)⟩

/-- C1 (counterexample): two argument-delta fragments for the same slot do
not concatenate: after fragments "ab" then "cd" the buffer holds "cd" (each
non-empty fragment is assigned, replacing the previous value), not
"abcd". -/
theorem C1_counterexample :
    (feed accZero [processEvent (evFnArgsDelta 0 "x" "ab"),
                   processEvent (evFnArgsDelta 0 "x" "cd")]).map (fun b => argAt b 0 "x") =
      some (some "cd") ∧ ("cd" : String) ≠ "ab" ++ "cd" :=
  ⟨rfl, by decide⟩

/-- C1 (amended): for an existing tool-call slot, a
`ToolCallArgumentsDelta` event with a non-empty fragment replaces the slot's
argument buffer with exactly that fragment (assignment, not concatenation),
and a `ToolCallArgumentsDone` event likewise replaces it with its full
payload; the spec's concrete example still yields exactly the done payload
because the done event overwrites last. -/
theorem C1_arguments_merge_policy :
    (∀ (a : ResponsesStreamAccumulator) (i : Nat) (x s : String) (t0 : ResponseToolCall),
        i < a.Choices.length → lookupToolCall (toolCallsAt a i) x = some t0 → s ≠ "" →
        (AddChunk a (processEvent (evFnArgsDelta (i : Int) x s))).map
            (fun b => argAt b i x) = some (some s)) ∧
    (∀ (a : ResponsesStreamAccumulator) (i : Nat) (x s : String) (t0 : ResponseToolCall),
        i < a.Choices.length → lookupToolCall (toolCallsAt a i) x = some t0 → s ≠ "" →
        (AddChunk a (processEvent (evFnArgsDone (i : Int) x s))).map
            (fun b => argAt b i x) = some (some s)) ∧
    (feed accZero [processEvent (evFnArgsDelta 0 "x" "\x7b\"a\":"),
                   processEvent (evFnArgsDelta 0 "x" "1\x7d"),
                   processEvent (evFnArgsDone 0 "x" "\x7b\"a\":1\x7d")]).map
        (fun b => argAt b 0 "x") = some (some "\x7b\"a\":1\x7d") := by
  refine ⟨?_, ?_, rfl⟩
  · intro a i x s t0 hi hlook hs
    rw [processEvent_evFnArgsDelta]
    simpa [hs] using AddChunk_argAt_update ⟨x, "", "", ⟨"", s⟩⟩ hi hlook
  · intro a i x s t0 hi hlook hs
    rw [processEvent_evFnArgsDone]
    simpa [hs] using AddChunk_argAt_update ⟨x, "", "", ⟨"", s⟩⟩ hi hlook

/-- Witness for C1 on the concrete fixture slot. -/
theorem C1_arguments_merge_policy_witness :
    0 < accW.Choices.length ∧
    lookupToolCall (toolCallsAt accW 0) "x" = some ⟨"x", "", "function", ⟨"f", "old"⟩⟩ ∧
    ("zz" : String) ≠ "" ∧
    (AddChunk accW (processEvent (evFnArgsDelta 0 "x" "zz"))).map
        (fun b => argAt b 0 "x") = some (some "zz") :=
  ⟨by decide, by decide, by decide,
   C1_arguments_merge_policy.1 accW 0 "x" "zz" ⟨"x", "", "function", ⟨"f", "old"⟩⟩
     (by decide) (by decide) (by decide)⟩

/-- C4 (counterexample): `function_name` is not first-write-wins: a slot
whose name was set to "f" is renamed by a later `output_item.done` event
carrying the non-empty name "g". -/
theorem C4_counterexample :
    (feed accZero [processEvent (evItemAdded 0 "x" "c1" "f"),
                   processEvent (evItemDone 0 "x" "c1" "g" "1")]).map
        (fun b => nameAt b 0 "x") = some (some "g") ∧ ("g" : String) ≠ "f" :=
  ⟨rfl, by decide⟩

/-- C4 (amended): `function_name` has last-non-empty-write-wins semantics:
a later event for the same slot carrying a non-empty name overwrites the
stored name, while an event carrying an empty name leaves it unchanged. -/
theorem C4_function_name_policy :
    (∀ (a : ResponsesStreamAccumulator) (i : Nat) (x c n ar : String)
        (t0 : ResponseToolCall),
        i < a.Choices.length → lookupToolCall (toolCallsAt a i) x = some t0 → n ≠ "" →
        (AddChunk a (processEvent (evItemDone (i : Int) x c n ar))).map
            (fun b => nameAt b i x) = some (some n)) ∧
    (∀ (a : ResponsesStreamAccumulator) (i : Nat) (x c ar : String)
        (t0 : ResponseToolCall),
        i < a.Choices.length → lookupToolCall (toolCallsAt a i) x = some t0 →
        (AddChunk a (processEvent (evItemDone (i : Int) x c "" ar))).map
            (fun b => nameAt b i x) = some (some t0.Function.Name)) := by
  constructor
  · intro a i x c n ar t0 hi hlook hn
    rw [processEvent_evItemDone]
    simpa [hn] using AddChunk_nameAt_update ⟨x, c, "function", ⟨n, ar⟩⟩ hi hlook
  · intro a i x c ar t0 hi hlook
    rw [processEvent_evItemDone]
    simpa using AddChunk_nameAt_update ⟨x, c, "function", ⟨"", ar⟩⟩ hi hlook

/-- Witness for C4 on the concrete fixture slot (name "f" overwritten by "g"). -/
theorem C4_function_name_policy_witness :
    0 < accW.Choices.length ∧
    lookupToolCall (toolCallsAt accW 0) "x" = some ⟨"x", "", "function", ⟨"f", "old"⟩⟩ ∧
    ("g" : String) ≠ "" ∧
    (AddChunk accW (processEvent (evItemDone 0 "x" "c1" "g" "1"))).map
        (fun b => nameAt b 0 "x") = some (some "g") :=
  ⟨by decide, by decide, by decide,
   C4_function_name_policy.1 accW 0 "x" "c1" "g" "1" ⟨"x", "", "function", ⟨"f", "old"⟩⟩
     (by decide) (by decide) (by decide)⟩

/-- C7 (counterexample): a frame that parses, is recognized
(`response.completed`) and carries no extractable mergeable data (empty id,
no choices, no usage) is not skipped in favour of the next meaningful
event: `Recv` ends the stream (`io.EOF`) even though the following frame
holds a meaningful content delta that a skip would have returned. -/
theorem C7_counterexample :
    isEmptyResp (processEvent evCompletedBare) = true ∧
    Recv ⟨[Frame.event evCompletedBare, Frame.event (evContentDelta "hi")], none⟩ =
      (.error .eof, ⟨[Frame.event (evContentDelta "hi")], some .eof⟩) ∧
    (Recv ⟨[Frame.event (evContentDelta "hi")], none⟩).1 =
      .ok (processEvent (evContentDelta "hi")) :=
  ⟨rfl, rfl, rfl⟩

/-- C7 (amended): a frame whose payload fails parsing is a hard error and
propagates; a parseable frame decoding to a recognized-but-empty event
(no choices, empty id, no usage) with a non-terminal discriminator is never
surfaced and never produces an error — `Recv` returns the result for the
rest of the stream; every unknown discriminator decodes to such an empty
non-terminal event; but a terminal discriminator decoding empty ends the
stream instead of skipping to the next meaningful event. -/
theorem C7_decode_error_and_skip :
    (∀ rest : List Frame,
        Recv ⟨Frame.malformed :: rest, none⟩ = (.error .jsonErr, ⟨rest, some .jsonErr⟩)) ∧
    (∀ (d : EventData) (rest : List Frame),
        isEmptyResp (processEvent d) = true → isTerminal d = false →
        Recv ⟨Frame.event d :: rest, none⟩ = Recv ⟨rest, none⟩) ∧
    (∀ d : EventData, d.typ.getD "" ∉ knownEventTypes →
        isEmptyResp (processEvent d) = true ∧ isTerminal d = false) ∧
    (∀ (d : EventData) (rest : List Frame),
        isEmptyResp (processEvent d) = true → isTerminal d = true →
        Recv ⟨Frame.event d :: rest, none⟩ = (.error .eof, ⟨rest, some .eof⟩)) := by
  refine ⟨fun _ => rfl, fun d rest he ht => Recv_skip he ht rest, ?_,
    fun d rest he ht => Recv_terminal_empty he ht rest⟩
  intro d h
  have h1 : d.typ.getD "" ≠ "response.completed" :=
    fun hc => h (by rw [hc]; simp [knownEventTypes])
  have h2 : d.typ.getD "" ≠ "response.incomplete" :=
    fun hc => h (by rw [hc]; simp [knownEventTypes])
  refine ⟨?_, ?_⟩
  · rw [processEvent_unknown h]; rfl
  · simp [isTerminal, h1, h2]

/-- Witness for C7: a concrete unknown-discriminator frame is skipped. -/
theorem C7_decode_error_and_skip_witness :
    isEmptyResp (processEvent evWeird) = true ∧ isTerminal evWeird = false ∧
    Recv ⟨[Frame.event evWeird, Frame.event (evContentDelta "hi")], none⟩ =
      Recv ⟨[Frame.event (evContentDelta "hi")], none⟩ :=
  ⟨by decide, by decide,
   C7_decode_error_and_skip.2.1 evWeird [Frame.event (evContentDelta "hi")]
     (by decide) (by decide)⟩
